import Mathlib

/-!
Shallow embedding of the repository's four Python scripts
(`speech_to_text.py`, `voice_notetaker.py`, `record_test.py`,
`transcribe_test.py`) and proofs about their control flow.

Modelling conventions:
* Python exceptions are modelled with `Except Exn`: a raised exception is
  `Except.error e`, a normal return is `Except.ok v`.
* The external libraries (speech_recognition, sounddevice, whisper, scipy)
  are oracles: each call site takes an explicit outcome parameter saying what
  the library call did (returned a value or raised which exception).
* Side effects (prints, file writes, thread spawns, callbacks) are recorded
  as explicit action traces (`List` of an action type), in program order.
* Python `str.strip()` is modelled by `pyStrip` below (drop ASCII whitespace
  from both ends); only emptiness and structural equalities of stripped
  strings matter to the claims.
-/

/-- Exceptions that the code in `speech_to_text.py` raises or catches. -/
inductive Exn
  | fileNotFoundError (msg : String)
  | unknownValueError
  | requestError (msg : String)
  | valueError (msg : String)
  | otherError
  deriving DecidableEq, Repr

/-- Outcome of one call to the underlying `speech_recognition` recognizer
(`recognize_google` / `recognize_sphinx` / `recognize_azure` /
`recognize_bing`): it either returns text or raises. -/
inductive RecOutcome
  | ok (text : String)
  | raiseUnknownValue
  | raiseRequestError (msg : String)
  | raiseOther
  deriving DecidableEq, Repr

/-- The raw library call inside `_recognize_audio`, as an `Except`. -/
def libRecognize : RecOutcome → Except Exn String
  | .ok t => .ok t
  | .raiseUnknownValue => .error .unknownValueError
  | .raiseRequestError m => .error (.requestError m)
  | .raiseOther => .error .otherError

/-- The `if self.model_type == ... elif ... else: raise ValueError` chain in
`SpeechToTextModel._recognize_audio` (speech_to_text.py, lines 150-161),
before the surrounding `try/except`. -/
def recognizeBody (modelType : String) (oc : RecOutcome) : Except Exn String :=
  if modelType = "google" then libRecognize oc
  else if modelType = "sphinx" then libRecognize oc
  else if modelType = "azure" then libRecognize oc
  else if modelType = "bing" then libRecognize oc
  else .error (.valueError ("Unsupported model type: " ++ modelType))

/-- Model of `SpeechToTextModel._recognize_audio` (speech_to_text.py, lines 139-166):
the dispatch chain wrapped in `try/except sr.UnknownValueError: return ""`
and `except sr.RequestError: return ""`. -/
def recognize_audio (modelType : String) (oc : RecOutcome) : Except Exn String :=
  match recognizeBody modelType oc with
  | .error .unknownValueError => .ok ""
  | .error (.requestError _) => .ok ""
  | r => r

/-- The set of engine names accepted by `_recognize_audio`. -/
def supportedModel (m : String) : Bool :=
  m = "google" || m = "sphinx" || m = "azure" || m = "bing"

/-- Model of `SpeechToTextModel.transcribe_audio_file` (speech_to_text.py, lines
68-97). `fs` models `os.path.exists`; the `sr.AudioFile`/`record` step has no
effect relevant to the claims and is elided. The `try` block calls
`_recognize_audio` and catches `sr.UnknownValueError` and `sr.RequestError`,
returning `""` for both. -/
def transcribe_audio_file (fs : String → Bool) (modelType : String)
    (path : String) (oc : RecOutcome) : Except Exn String :=
  if fs path = false then
    .error (.fileNotFoundError ("Audio file not found: " ++ path))
  else
    match recognize_audio modelType oc with
    | .ok text => .ok text
    | .error .unknownValueError => .ok ""
    | .error (.requestError _) => .ok ""
    | .error e => .error e

/-- Python `str.strip()` on one side: drop leading whitespace. -/
def stripLeft (cs : List Char) : List Char :=
  cs.dropWhile Char.isWhitespace

/-- Python `str.strip()` over a character list: drop whitespace from both
ends. -/
def stripList (cs : List Char) : List Char :=
  ((stripLeft cs).reverse.dropWhile Char.isWhitespace).reverse

/-- Model of Python `str.strip()`. -/
def pyStrip (s : String) : String :=
  String.mk (stripList s.data)

/-- Outcome of `self.recognizer.listen(source, timeout=1, phrase_time_limit=5)`
together with entering `with self.microphone` (speech_to_text.py, lines
118-120): audio was captured, the listen timed out, or some other exception
was raised while listening. -/
inductive ListenOutcome
  | audioOk
  | waitTimeout
  | listenError
  deriving DecidableEq, Repr

/-- Observable actions of `speech_to_text.py` code: thread creation and
start, callback invocations, logging, and (never emitted by this code) any
lock/queue/event coordination between threads. -/
inductive RTAction
  | spawnWorker (daemon : Bool)
  | startWorker
  | invokeCallback (text : String)
  | logInfo (msg : String)
  | logError (msg : String)
  | synchronize
  deriving DecidableEq, Repr

/-- One pass through the `while True` body of `listen_continuously`
(speech_to_text.py, lines 117-132), after the duration check: listen, then
`_recognize_audio`, then `if text.strip(): callback(text)`, with
`except sr.WaitTimeoutError: continue` and
`except Exception as e: logger.error(...); continue`. -/
def loop_iteration (modelType : String) (lo : ListenOutcome)
    (ro : RecOutcome) : List RTAction :=
  match lo with
  | .waitTimeout => []
  | .listenError => [.logError "Error in real-time transcription"]
  | .audioOk =>
    match recognize_audio modelType ro with
    | .ok text => if pyStrip text = "" then [] else [.invokeCallback text]
    | .error _ => [.logError "Error in real-time transcription"]

/-- The `if duration and (time.time() - start_time) > duration: break` guard
(speech_to_text.py, line 114). `duration` is `Optional[int]`; Python
truthiness makes `None` and `0` skip the check. `elapsed` models
`time.time() - start_time` at this iteration. -/
def breakCheck (duration : Option Nat) (elapsed : Nat) : Bool :=
  match duration with
  | none => false
  | some d => decide (d ≠ 0) && decide (d < elapsed)

/-- One iteration's inputs from the environment: the elapsed time observed at
the top of the loop, what the listen call did, and what the recognizer call
would do. -/
structure LoopEvent where
  elapsed : Nat
  listen : ListenOutcome
  recOut : RecOutcome
  deriving DecidableEq, Repr

/-- How a run of the loop, driven by a finite prefix of environment events,
ended: it broke out via the duration check, or it was still running when the
supplied events ran out (the loop itself has no other exit). -/
inductive LoopExit
  | brokeOnDuration
  | stillRunning
  deriving DecidableEq, Repr

/-- The nested `listen_continuously` loop of
`SpeechToTextModel.start_real_time_transcription` (speech_to_text.py, lines
111-132), run over a finite trace of environment events: returns the actions
performed and how the run ended. -/
def listen_continuously (duration : Option Nat) (modelType : String) :
    List LoopEvent → List RTAction × LoopExit
  | [] => ([], .stillRunning)
  | ev :: rest =>
    if breakCheck duration ev.elapsed then ([], .brokeOnDuration)
    else
      let r := listen_continuously duration modelType rest
      (loop_iteration modelType ev.listen ev.recOut ++ r.1, r.2)

/-- The thread object built by `threading.Thread(target=listen_continuously,
daemon=True)`: its daemon flag and the `duration` captured by its target
closure. -/
structure WorkerThread where
  daemon : Bool
  duration : Option Nat
  deriving DecidableEq, Repr

/-- Model of `SpeechToTextModel.start_real_time_transcription` (speech_to_text.py,
lines 99-137), caller side: log, create the worker thread with
`daemon=True`, start it, and return it. The worker's own behaviour is
`listen_continuously duration`. -/
def start_real_time_transcription (duration : Option Nat) :
    List RTAction × WorkerThread :=
  ([.logInfo "Starting real-time transcription...",
    .spawnWorker true, .startWorker],
   ⟨true, duration⟩)

/-- voice_notetaker.py line 9 (record_test.py line 3 defines the same
value). -/
def SAMPLE_RATE : Nat := 16000

/-- voice_notetaker.py line 10. -/
def CHUNK_DURATION : Nat := 10

/-- voice_notetaker.py line 11. -/
def OUTPUT_DIR : String := "recordings"

/-- voice_notetaker.py line 12. -/
def NOTES_FILE : String := "notes.txt"

/-- record_test.py line 4 (the 5-second test recording length). -/
def TEST_DURATION : Nat := 5

/-- Observable actions of `voice_notetaker.py` and `record_test.py`:
sounddevice recording (frame count, sample rate, channels, dtype), waiting
for the recording, `scipy.io.wavfile.write` of the recorded array (its frame
count is carried along), a whisper transcription call, an append-mode file
write, and a print. -/
inductive NoteAction
  | sdRec (frames sampleRate channels : Nat) (dtype : String)
  | sdWait
  | wavWrite (file : String) (sampleRate frames : Nat)
  | whisperTranscribe (file : String)
  | fileAppend (file text : String)
  | printOut (msg : String)
  deriving DecidableEq, Repr

/-- Model of `record_chunk` in voice_notetaker.py (lines 18-26): announce, record
`int(duration * SAMPLE_RATE)` mono int16 frames at `SAMPLE_RATE`, wait,
write the recorded array to `filename`, report success. -/
def record_chunk (filename : String) (duration : Nat) : List NoteAction :=
  [ .printOut ("\n[INFO] Recording " ++ toString duration
      ++ " seconds... Speak now."),
    .sdRec (duration * SAMPLE_RATE) SAMPLE_RATE 1 "int16",
    .sdWait,
    .wavWrite filename SAMPLE_RATE (duration * SAMPLE_RATE),
    .printOut ("[INFO] Saved audio to " ++ filename) ]

/-- Model of `record_test` in record_test.py (lines 7-15): same shape with the
module-level constants and fixed output file `test.wav`. -/
def record_test : List NoteAction :=
  [ .printOut "Recording for 5 seconds... Speak now.",
    .sdRec (TEST_DURATION * SAMPLE_RATE) SAMPLE_RATE 1 "int16",
    .sdWait,
    .wavWrite "test.wav" SAMPLE_RATE (TEST_DURATION * SAMPLE_RATE),
    .printOut "Saved to test.wav" ]

/-- The line built by `append_to_notes` (voice_notetaker.py line 29):
`f"[{timestamp}] {text.strip()}\n"`. -/
def noteLine (timestamp text : String) : String :=
  "[" ++ timestamp ++ "] " ++ pyStrip text ++ "\n"

/-- Model of `append_to_notes` in voice_notetaker.py (lines 28-32): append the line to
NOTES_FILE (mode "a") and print it stripped, prefixed with `[TRANSCRIPT] `. -/
def append_to_notes (timestamp text : String) : List NoteAction :=
  [ .fileAppend NOTES_FILE (noteLine timestamp text),
    .printOut ("[TRANSCRIPT] " ++ pyStrip (noteLine timestamp text)) ]

/-- Model of `os.path.join(OUTPUT_DIR, "chunk_" + timestamp + ".wav")` (voice_notetaker.py
line 45), on a POSIX path separator. -/
def wavPath (timestamp : String) : String :=
  OUTPUT_DIR ++ "/chunk_" ++ timestamp ++ ".wav"

/-- One iteration of the `while True` body of `main` in voice_notetaker.py
(lines 42-63). `fileTimestamp` and `humanTime` model the two
`datetime.now().strftime` results; `transcript` models
`model.transcribe(wav_path, fp16=False).get("text", "")`. -/
def notetaker_iteration (fileTimestamp transcript humanTime : String) :
    List NoteAction :=
  record_chunk (wavPath fileTimestamp) CHUNK_DURATION
    ++ [ .printOut "[INFO] Transcribing...",
         .whisperTranscribe (wavPath fileTimestamp) ]
    ++ (if pyStrip transcript = "" then
          [ .printOut "[INFO] No speech detected in this chunk." ]
        else
          append_to_notes humanTime (pyStrip transcript))

/-- A whole run of the notetaker loop over finitely many chunks, each chunk
described by its filename timestamp, raw whisper transcript and
human-readable timestamp. -/
def notetaker_run : List (String × String × String) → List NoteAction
  | [] => []
  | (ts, tr, ht) :: rest => notetaker_iteration ts tr ht ++ notetaker_run rest

/-- Semantics of the append-mode writes in a trace: the contents of
NOTES_FILE after running the actions, starting from `contents`. Appends to
other files leave it unchanged; no action truncates it. -/
def runNotesFile : List NoteAction → String → String
  | [], contents => contents
  | .fileAppend f text :: rest, contents =>
      runNotesFile rest (if f = NOTES_FILE then contents ++ text else contents)
  | _ :: rest, contents => runNotesFile rest contents

/-- Model of `input_path.rsplit('.', 1)[0]` over a character list: everything before
the last `'.'`, or the whole list when there is no `'.'`. -/
def rsplitDotStem (cs : List Char) : List Char :=
  if '.' ∈ cs then
    ((cs.reverse.dropWhile (fun c => c ≠ '.')).drop 1).reverse
  else cs

/-- Model of `AudioProcessor.convert_to_wav` (speech_to_text.py, lines 205-222): pick
the output path (the given one, or the input with its last-`'.'` suffix
replaced), log, and return it. The body performs no file operation (the
conversion is an acknowledged placeholder). -/
def convert_to_wav (input_path : String) (output_path : Option String) :
    List RTAction × String :=
  let out : String :=
    match output_path with
    | none => String.mk (rsplitDotStem input_path.data) ++ ".wav"
    | some p => p
  ([.logInfo ("Converting " ++ input_path ++ " to " ++ out)], out)

theorem dropWhile_self {α : Type} (p : α → Bool) (l : List α) :
    (l.dropWhile p).dropWhile p = l.dropWhile p := by
  induction l with
  | nil => rfl
  | cons a l ih =>
    cases hp : p a
    · simp [List.dropWhile_cons, hp]
    · simp [List.dropWhile_cons, hp, ih]

theorem dropWhile_head_false {α : Type} (p : α → Bool) (l : List α)
    (x : α) (xs : List α) (h : l.dropWhile p = x :: xs) : p x = false := by
  induction l with
  | nil => simp [List.dropWhile] at h
  | cons a l ih =>
    cases hp : p a
    · rw [List.dropWhile_cons, hp] at h
      simp at h
      rw [← h.1, hp]
    · rw [List.dropWhile_cons, hp] at h
      simp at h
      exact ih h

theorem dropWhile_append_last {α : Type} (p : α → Bool) (x : α)
    (hx : p x = false) (l : List α) :
    (l ++ [x]).dropWhile p = l.dropWhile p ++ [x] := by
  induction l with
  | nil => simp [List.dropWhile_cons, hx]
  | cons a l ih =>
    cases hp : p a <;> simp [List.dropWhile_cons, hp, ih]

theorem stripList_idem (cs : List Char) :
    stripList (stripList cs) = stripList cs := by
  unfold stripList stripLeft
  cases hd : cs.dropWhile Char.isWhitespace with
  | nil => simp
  | cons x xs =>
    have hx : Char.isWhitespace x = false := dropWhile_head_false _ _ _ _ hd
    have h1 : ∀ l : List Char, (x :: l).dropWhile Char.isWhitespace = x :: l := by
      intro l
      simp [List.dropWhile_cons, hx]
    rw [List.reverse_cons, dropWhile_append_last _ _ hx, List.reverse_append]
    simp only [List.reverse_cons, List.reverse_nil, List.nil_append,
      List.singleton_append]
    rw [h1]
    simp only [List.reverse_cons, List.reverse_reverse]
    rw [dropWhile_append_last _ _ hx, dropWhile_self]
    simp

theorem stripList_eq_nil_iff (cs : List Char) :
    stripList cs = [] ↔ ∀ c ∈ cs, Char.isWhitespace c := by
  unfold stripList stripLeft
  constructor
  · intro h
    cases hd : cs.dropWhile Char.isWhitespace with
    | nil => exact List.dropWhile_eq_nil_iff.1 hd
    | cons x xs =>
      exfalso
      have hx : Char.isWhitespace x = false := dropWhile_head_false _ _ _ _ hd
      rw [hd, List.reverse_cons, dropWhile_append_last _ _ hx] at h
      simp at h
  · intro h
    rw [List.dropWhile_eq_nil_iff.2 h]
    rfl

theorem pyStrip_idem (s : String) : pyStrip (pyStrip s) = pyStrip s :=
  congrArg String.mk (stripList_idem s.data)

theorem pyStrip_eq_empty_iff (s : String) :
    pyStrip s = "" ↔ ∀ c ∈ s.data, Char.isWhitespace c := by
  constructor
  · intro h
    exact (stripList_eq_nil_iff s.data).1 (congrArg String.data h)
  · intro h
    exact congrArg String.mk ((stripList_eq_nil_iff s.data).2 h)

/-- C1: if the path given to `transcribe_audio_file` does not exist the call
raises `FileNotFoundError`; otherwise, when the underlying recognizer raises
`UnknownValueError` or `RequestError` (which presupposes a supported engine
was dispatched to), the method returns `""` instead of propagating the
exception. -/
theorem C1_transcribe_error_handling (fs : String → Bool) (mt path : String)
    (oc : RecOutcome) :
    (fs path = false →
      transcribe_audio_file fs mt path oc =
        .error (.fileNotFoundError ("Audio file not found: " ++ path))) ∧
    (fs path = true → supportedModel mt = true →
      (oc = .raiseUnknownValue ∨ ∃ m, oc = .raiseRequestError m) →
      transcribe_audio_file fs mt path oc = .ok "") := by
  constructor
  · intro h
    simp [transcribe_audio_file, h]
  · intro hfs hmt hoc
    have hrec : recognize_audio mt oc = .ok "" := by
      simp only [supportedModel, Bool.or_eq_true, decide_eq_true_eq] at hmt
      have hbody : recognizeBody mt oc = libRecognize oc := by
        rcases hmt with ((h | h) | h) | h <;> simp [recognizeBody, h]
      rcases hoc with h | ⟨m, h⟩ <;> subst h <;>
        simp [recognize_audio, hbody, libRecognize]
    simp [transcribe_audio_file, hfs, hrec]

/-- Witness for C1: concrete missing file, and a concrete
`UnknownValueError` from the recognizer. -/
theorem C1_transcribe_error_handling_witness :
    transcribe_audio_file (fun _ => false) "google" "a.wav" (.ok "hi") =
      .error (.fileNotFoundError "Audio file not found: a.wav") ∧
    transcribe_audio_file (fun _ => true) "google" "a.wav"
      .raiseUnknownValue = .ok "" :=
  ⟨(C1_transcribe_error_handling (fun _ => false) "google" "a.wav"
      (.ok "hi")).1 rfl,
   (C1_transcribe_error_handling (fun _ => true) "google" "a.wav"
      .raiseUnknownValue).2 rfl rfl (Or.inl rfl)⟩

/-- C8: for every model_type outside the four supported names,
`_recognize_audio` raises `ValueError`, the surrounding handlers do not
catch it, and `transcribe_audio_file` propagates it instead of returning
`""`. -/
theorem C8_unsupported_model_valueerror (mt : String) (oc : RecOutcome)
    (h : supportedModel mt = false) :
    recognize_audio mt oc =
      .error (.valueError ("Unsupported model type: " ++ mt)) ∧
    ∀ fs path, fs path = true →
      transcribe_audio_file fs mt path oc =
        .error (.valueError ("Unsupported model type: " ++ mt)) := by
  simp only [supportedModel, Bool.or_eq_false_iff, decide_eq_false_iff_not] at h
  obtain ⟨⟨⟨h1, h2⟩, h3⟩, h4⟩ := h
  have hrec : recognize_audio mt oc =
      .error (.valueError ("Unsupported model type: " ++ mt)) := by
    simp [recognize_audio, recognizeBody, h1, h2, h3, h4]
  refine ⟨hrec, fun fs path hfs => ?_⟩
  simp [transcribe_audio_file, hfs, hrec]

/-- Witness for C8 at the concrete unsupported engine name "whisper". -/
theorem C8_unsupported_model_valueerror_witness :
    recognize_audio "whisper" (.ok "hi") =
      .error (.valueError "Unsupported model type: whisper") ∧
    transcribe_audio_file (fun _ => true) "whisper" "a.wav" (.ok "hi") =
      .error (.valueError "Unsupported model type: whisper") :=
  ⟨(C8_unsupported_model_valueerror "whisper" (.ok "hi") rfl).1,
   (C8_unsupported_model_valueerror "whisper" (.ok "hi") rfl).2
     (fun _ => true) "a.wav" rfl⟩

/-- C2 counterexample: with `duration=1` and elapsed time 2, the loop stops
by itself through the `duration` check — no interrupt and no exhausted event
trace involved — so "no other condition inside the loop causes it to stop"
is false as stated. -/
theorem C2_counterexample :
    listen_continuously (some 1) "google"
      [⟨2, .audioOk, .ok "hello"⟩] = ([], .brokeOnDuration) ∧
    LoopExit.brokeOnDuration ≠ LoopExit.stillRunning := by
  constructor
  · rfl
  · intro h
    cases h

/-- C2 (amended): when `duration` is `None` (or `0`, which Python truthiness
also skips), no condition inside the loop causes it to stop; the loop stops
on its own only when a nonzero `duration` was given and the elapsed time at
some iteration exceeded it. -/
theorem C2_amended_no_internal_stop (d : Option Nat) (mt : String)
    (evs : List LoopEvent) :
    (d = none ∨ d = some 0 →
      (listen_continuously d mt evs).2 = .stillRunning) ∧
    ((listen_continuously d mt evs).2 = .brokeOnDuration →
      ∃ k, d = some k ∧ k ≠ 0 ∧ ∃ ev ∈ evs, k < ev.elapsed) := by
  induction evs with
  | nil =>
    refine ⟨fun _ => rfl, fun h => ?_⟩
    simp [listen_continuously] at h
  | cons ev rest ih =>
    constructor
    · intro hd
      have hb : breakCheck d ev.elapsed = false := by
        rcases hd with h | h <;> subst h <;> simp [breakCheck]
      simp only [listen_continuously, hb, if_false, Bool.false_eq_true]
      exact ih.1 hd
    · intro h
      cases hb : breakCheck d ev.elapsed
      · simp only [listen_continuously, hb, if_false, Bool.false_eq_true] at h
        obtain ⟨k, hk, hk0, ev', hmem, hlt⟩ := ih.2 h
        exact ⟨k, hk, hk0, ev', List.mem_cons_of_mem _ hmem, hlt⟩
      · cases d with
        | none => simp [breakCheck] at hb
        | some k =>
          simp only [breakCheck, Bool.and_eq_true, decide_eq_true_eq] at hb
          exact ⟨k, rfl, hb.1, ev, List.mem_cons_self _ _, hb.2⟩

/-- Witness for the amended C2: with no duration the loop is still running
after a concrete event. -/
theorem C2_amended_no_internal_stop_witness :
    (listen_continuously none "google"
      [⟨100, .audioOk, .ok "hi"⟩]).2 = .stillRunning :=
  (C2_amended_no_internal_stop none "google"
    [⟨100, .audioOk, .ok "hi"⟩]).1 (Or.inl rfl)

/-- C5: when the duration guard does not fire, an iteration whose listen
timed out (or raised anything else), or whose recognition raised, emits no
callback and the loop goes on to the next iteration; the callback fires only
for recognized text that is non-empty after stripping. -/
theorem C5_loop_error_handling (mt : String) (ev : LoopEvent)
    (d : Option Nat) (rest : List LoopEvent)
    (h : breakCheck d ev.elapsed = false) :
    listen_continuously d mt (ev :: rest) =
      (loop_iteration mt ev.listen ev.recOut ++
        (listen_continuously d mt rest).1,
       (listen_continuously d mt rest).2) ∧
    (ev.listen = .waitTimeout ∨ ev.listen = .listenError →
      ∀ t, RTAction.invokeCallback t ∉
        loop_iteration mt ev.listen ev.recOut) ∧
    (∀ e, recognize_audio mt ev.recOut = .error e →
      ∀ t, RTAction.invokeCallback t ∉
        loop_iteration mt ev.listen ev.recOut) ∧
    (∀ t, RTAction.invokeCallback t ∈ loop_iteration mt ev.listen ev.recOut →
      ev.listen = .audioOk ∧ recognize_audio mt ev.recOut = .ok t ∧
        pyStrip t ≠ "") := by
  obtain ⟨el, lo, ro⟩ := ev
  refine ⟨by simp [listen_continuously, h], ?_, ?_, ?_⟩
  · intro hlo t
    rcases hlo with h1 | h1 <;> (cases h1; simp [loop_iteration])
  · intro e he t
    cases lo <;> simp [loop_iteration, he]
  · intro t ht
    cases lo with
    | waitTimeout => simp [loop_iteration] at ht
    | listenError => simp [loop_iteration] at ht
    | audioOk =>
      refine ⟨rfl, ?_⟩
      cases hr : recognize_audio mt ro with
      | error e => simp [loop_iteration, hr] at ht
      | ok text =>
        by_cases hs : pyStrip text = ""
        · simp [loop_iteration, hr, hs] at ht
        · simp [loop_iteration, hr, hs] at ht
          subst ht
          exact ⟨rfl, hs⟩

/-- Witness for C5: a concrete timed-out iteration emits nothing and the
run continues. -/
theorem C5_loop_error_handling_witness :
    listen_continuously none "google" [⟨0, .waitTimeout, .ok "x"⟩] =
      ([], .stillRunning) := by
  have h := (C5_loop_error_handling "google" ⟨0, .waitTimeout, .ok "x"⟩
    none [] rfl).1
  simpa [loop_iteration, listen_continuously] using h

/-- Recognizer for thread-creation actions in a trace. -/
def isSpawn : RTAction → Bool
  | .spawnWorker _ => true
  | _ => false

theorem synchronize_not_in_iteration (mt : String) (lo : ListenOutcome)
    (ro : RecOutcome) :
    RTAction.synchronize ∉ loop_iteration mt lo ro := by
  cases lo with
  | waitTimeout => simp [loop_iteration]
  | listenError => simp [loop_iteration]
  | audioOk =>
    cases hr : recognize_audio mt ro with
    | error e => simp [loop_iteration, hr]
    | ok text =>
      by_cases hs : pyStrip text = "" <;> simp [loop_iteration, hr, hs]

theorem synchronize_not_in_loop (d : Option Nat) (mt : String)
    (evs : List LoopEvent) :
    RTAction.synchronize ∉ (listen_continuously d mt evs).1 := by
  induction evs with
  | nil => simp [listen_continuously]
  | cons ev rest ih =>
    cases hb : breakCheck d ev.elapsed
    · simp only [listen_continuously, hb, if_false, Bool.false_eq_true,
        List.mem_append]
      intro h
      rcases h with h | h
      · exact synchronize_not_in_iteration mt ev.listen ev.recOut h
      · exact ih h
    · simp [listen_continuously, hb]

/-- C7: every call to `start_real_time_transcription` creates exactly one
worker thread, with `daemon=True`, starts it, and returns it; and no action
of the caller or of the worker loop is a lock/queue/event coordination
between the two. -/
theorem C7_single_daemon_worker (d : Option Nat) :
    (start_real_time_transcription d).1.filter isSpawn =
      [.spawnWorker true] ∧
    (start_real_time_transcription d).1 =
      [.logInfo "Starting real-time transcription...",
       .spawnWorker true, .startWorker] ∧
    (start_real_time_transcription d).2 = ⟨true, d⟩ ∧
    RTAction.synchronize ∉ (start_real_time_transcription d).1 ∧
    ∀ mt evs, RTAction.synchronize ∉ (listen_continuously d mt evs).1 := by
  refine ⟨?_, rfl, rfl, ?_, fun mt evs => synchronize_not_in_loop d mt evs⟩
  · rfl
  · simp [start_real_time_transcription]

theorem runNotesFile_append (l1 l2 : List NoteAction) (c : String) :
    runNotesFile (l1 ++ l2) c = runNotesFile l2 (runNotesFile l1 c) := by
  induction l1 generalizing c with
  | nil => rfl
  | cons a l ih => cases a <;> simp [runNotesFile, ih]

theorem runNotesFile_no_append (tr : List NoteAction) (c : String)
    (h : ∀ f l, NoteAction.fileAppend f l ∉ tr) :
    runNotesFile tr c = c := by
  induction tr generalizing c with
  | nil => rfl
  | cons a rest ih =>
    have hrest : ∀ f l, NoteAction.fileAppend f l ∉ rest :=
      fun f l hm => h f l (List.mem_cons_of_mem _ hm)
    cases a with
    | fileAppend f l => exact absurd (List.mem_cons_self _ _) (h f l)
    | sdRec n r ch dt => exact ih c hrest
    | sdWait => exact ih c hrest
    | wavWrite f r n => exact ih c hrest
    | whisperTranscribe f => exact ih c hrest
    | printOut m => exact ih c hrest

/-- C3: every iteration of the notetaker loop performs, in this order:
announce and record the chunk, write it to the WAV file, announce and invoke
the whisper recognizer on that same WAV file, and only after all of that any
print or file append of the resulting text. -/
theorem C3_iteration_order (ts tr ht : String) :
    ∃ tail,
      notetaker_iteration ts tr ht =
        [ .printOut ("\n[INFO] Recording " ++ toString CHUNK_DURATION
            ++ " seconds... Speak now."),
          .sdRec (CHUNK_DURATION * SAMPLE_RATE) SAMPLE_RATE 1 "int16",
          .sdWait,
          .wavWrite (wavPath ts) SAMPLE_RATE (CHUNK_DURATION * SAMPLE_RATE),
          .printOut ("[INFO] Saved audio to " ++ wavPath ts),
          .printOut "[INFO] Transcribing...",
          .whisperTranscribe (wavPath ts) ] ++ tail ∧
      ∀ a ∈ tail,
        (∃ f l, a = NoteAction.fileAppend f l) ∨
        (∃ m, a = NoteAction.printOut m) := by
  by_cases h : pyStrip tr = ""
  · refine ⟨[.printOut "[INFO] No speech detected in this chunk."], ?_, ?_⟩
    · simp [notetaker_iteration, record_chunk, h]
    · intro a ha
      simp only [List.mem_singleton] at ha
      exact Or.inr ⟨_, ha⟩
  · refine ⟨append_to_notes ht (pyStrip tr), ?_, ?_⟩
    · simp [notetaker_iteration, record_chunk, h]
    · intro a ha
      simp only [append_to_notes, List.mem_cons, List.mem_singleton,
        List.not_mem_nil, or_false] at ha
      rcases ha with h1 | h1 <;> subst h1
      · exact Or.inl ⟨_, _, rfl⟩
      · exact Or.inr ⟨_, rfl⟩

/-- Recognizer for append-mode file writes in a trace. -/
def isFileAppend : NoteAction → Bool
  | .fileAppend _ _ => true
  | _ => false

/-- C4: `append_to_notes` performs exactly one file write: an append of the
single newline-terminated line `"[timestamp] " ++ stripped text` to
NOTES_FILE, leaving previous contents as a prefix; its only other action
prints that line (stripped of the trailing newline, behind a
`[TRANSCRIPT] ` tag). -/
theorem C4_append_one_line (ts text contents : String) :
    (append_to_notes ts text).filter isFileAppend =
      [.fileAppend NOTES_FILE ("[" ++ ts ++ "] " ++ pyStrip text ++ "\n")] ∧
    runNotesFile (append_to_notes ts text) contents =
      contents ++ ("[" ++ ts ++ "] " ++ pyStrip text ++ "\n") ∧
    (append_to_notes ts text).filter (fun a => !(isFileAppend a)) =
      [.printOut ("[TRANSCRIPT] "
        ++ pyStrip ("[" ++ ts ++ "] " ++ pyStrip text ++ "\n"))] := by
  refine ⟨?_, ?_, ?_⟩ <;>
    simp [append_to_notes, noteLine, runNotesFile, isFileAppend]

/-- C6: both recording functions request exactly `duration * 16000` mono
int16 frames at 16000 Hz, wait for the recording, write that same frame
count to the named WAV file, and only then report success. -/
theorem C6_recording_shape (filename : String) (d : Nat) :
    (∃ pre mid post,
      record_chunk filename d =
        pre ++ [.sdRec (d * 16000) 16000 1 "int16"] ++ mid
            ++ [.wavWrite filename 16000 (d * 16000)] ++ post ∧
      NoteAction.sdWait ∈ mid ∧
      post = [.printOut ("[INFO] Saved audio to " ++ filename)]) ∧
    (∃ pre mid post,
      record_test =
        pre ++ [.sdRec (5 * 16000) 16000 1 "int16"] ++ mid
            ++ [.wavWrite "test.wav" 16000 (5 * 16000)] ++ post ∧
      NoteAction.sdWait ∈ mid ∧
      post = [.printOut "Saved to test.wav"]) := by
  constructor
  · refine ⟨[.printOut ("\n[INFO] Recording " ++ toString d
        ++ " seconds... Speak now.")], [.sdWait],
      [.printOut ("[INFO] Saved audio to " ++ filename)], ?_, ?_, rfl⟩
    · simp [record_chunk, SAMPLE_RATE]
    · simp
  · refine ⟨[.printOut "Recording for 5 seconds... Speak now."], [.sdWait],
      [.printOut "Saved to test.wav"], ?_, ?_, rfl⟩
    · simp [record_test, SAMPLE_RATE, TEST_DURATION]
    · simp

theorem fileAppend_in_iteration (ts tr ht f l : String)
    (h : NoteAction.fileAppend f l ∈ notetaker_iteration ts tr ht) :
    f = NOTES_FILE ∧ pyStrip tr ≠ "" ∧
      l = "[" ++ ht ++ "] " ++ pyStrip tr ++ "\n" := by
  by_cases hc : pyStrip tr = ""
  · simp [notetaker_iteration, record_chunk, hc] at h
  · simp [notetaker_iteration, record_chunk, hc, append_to_notes,
      noteLine] at h
    obtain ⟨h1, h2⟩ := h
    subst h1
    subst h2
    exact ⟨rfl, hc, by rw [pyStrip_idem]⟩

/-- C9: over any run of the notetaker loop, every line appended to
NOTES_FILE comes from a chunk whose stripped transcript was non-empty and
consists of a timestamp followed by that non-empty text; a chunk whose
transcript is empty or whitespace-only appends nothing, leaving NOTES_FILE
unchanged. -/
theorem C9_notes_invariant (chunks : List (String × String × String))
    (contents : String) :
    (∀ f l, NoteAction.fileAppend f l ∈ notetaker_run chunks →
      f = NOTES_FILE ∧ ∃ ts tr ht, (ts, tr, ht) ∈ chunks ∧
        pyStrip tr ≠ "" ∧ l = "[" ++ ht ++ "] " ++ pyStrip tr ++ "\n") ∧
    (∀ ts tr ht, (pyStrip tr = "" ∨ ∀ c ∈ tr.data, Char.isWhitespace c) →
      (∀ f l, NoteAction.fileAppend f l ∉ notetaker_iteration ts tr ht) ∧
      runNotesFile (notetaker_iteration ts tr ht) contents = contents) := by
  constructor
  · induction chunks with
    | nil =>
      intro f l h
      simp [notetaker_run] at h
    | cons chunk rest ih =>
      obtain ⟨ts, tr, ht⟩ := chunk
      intro f l h
      rw [notetaker_run, List.mem_append] at h
      rcases h with h | h
      · obtain ⟨h1, h2, h3⟩ := fileAppend_in_iteration ts tr ht f l h
        exact ⟨h1, ts, tr, ht, List.mem_cons_self _ _, h2, h3⟩
      · obtain ⟨h1, ts', tr', ht', hmem, h2, h3⟩ := ih f l h
        exact ⟨h1, ts', tr', ht', List.mem_cons_of_mem _ hmem, h2, h3⟩
  · intro ts tr ht hsil
    have hc : pyStrip tr = "" := by
      rcases hsil with h | h
      · exact h
      · exact (pyStrip_eq_empty_iff tr).2 h
    have hno : ∀ f l, NoteAction.fileAppend f l ∉ notetaker_iteration ts tr ht := by
      intro f l hmem
      exact absurd hc (fileAppend_in_iteration ts tr ht f l hmem).2.1
    exact ⟨hno, runNotesFile_no_append _ _ hno⟩

/-- Witness for C9: a concrete run with one spoken and one whitespace-only
chunk appends exactly the spoken line, and the silent chunk leaves the file
unchanged. -/
theorem C9_notes_invariant_witness :
    ("notes.txt" = NOTES_FILE ∧ ∃ ts tr ht,
      (ts, tr, ht) ∈ [("t1", "hi", "h1")] ∧ pyStrip tr ≠ "" ∧
      "[h1] hi\n" = "[" ++ ht ++ "] " ++ pyStrip tr ++ "\n") ∧
    runNotesFile (notetaker_iteration "t2" " " "h2") "old" = "old" :=
  ⟨(C9_notes_invariant [("t1", "hi", "h1")] "old").1 "notes.txt"
     ("[h1] hi\n") (by decide),
   ((C9_notes_invariant [("t1", "hi", "h1")] "old").2 "t2" " " "h2"
     (Or.inl rfl)).2⟩

theorem dropWhile_to_dot (cs : List Char) (h : '.' ∈ cs) :
    ∃ tl, cs.dropWhile (fun c => c ≠ '.') = '.' :: tl := by
  induction cs with
  | nil => cases h
  | cons a rest ih =>
    by_cases ha : a = '.'
    · subst ha
      exact ⟨rest, by simp [List.dropWhile_cons]⟩
    · have hmem : '.' ∈ rest := by
        rcases List.mem_cons.1 h with h1 | h1
        · exact absurd h1.symm ha
        · exact h1
      obtain ⟨tl, htl⟩ := ih hmem
      exact ⟨tl, by simpa [List.dropWhile_cons, ha] using htl⟩

theorem rsplitDotStem_spec (cs : List Char) (h : '.' ∈ cs) :
    ∃ suffix : List Char,
      cs = rsplitDotStem cs ++ '.' :: suffix ∧ '.' ∉ suffix := by
  have hrev : '.' ∈ cs.reverse := List.mem_reverse.2 h
  obtain ⟨tl, htl⟩ := dropWhile_to_dot cs.reverse hrev
  refine ⟨(cs.reverse.takeWhile (fun c => c ≠ '.')).reverse, ?_, ?_⟩
  · have hsplit :
        cs.reverse.takeWhile (fun c => c ≠ '.') ++ ('.' :: tl) = cs.reverse := by
      rw [← htl]
      exact List.takeWhile_append_dropWhile _ _
    unfold rsplitDotStem
    rw [if_pos h, htl]
    calc cs = cs.reverse.reverse := (List.reverse_reverse cs).symm
      _ = (cs.reverse.takeWhile (fun c => c ≠ '.') ++ '.' :: tl).reverse := by
          rw [hsplit]
      _ = (('.' :: tl).drop 1).reverse ++ '.' ::
            (cs.reverse.takeWhile (fun c => c ≠ '.')).reverse := by
          simp
  · intro hmem
    have := List.mem_takeWhile_imp (List.mem_reverse.1 hmem)
    simp at this

/-- C10: `convert_to_wav` creates no file and performs no conversion — its
only action is a log line — and it returns the given output path unchanged
when one is supplied; with no output path it returns the input with
everything after the last `'.'` replaced by `wav`, or the input with `.wav`
appended when the input contains no `'.'`. -/
theorem C10_convert_to_wav (input : String) (output : Option String) :
    (∀ p, output = some p → (convert_to_wav input output).2 = p) ∧
    (output = none → '.' ∉ input.data →
      (convert_to_wav input output).2 = input ++ ".wav") ∧
    (output = none → '.' ∈ input.data →
      ∃ stem suffix : List Char,
        input.data = stem ++ '.' :: suffix ∧ '.' ∉ suffix ∧
        (convert_to_wav input output).2 = String.mk stem ++ ".wav") ∧
    ∀ a ∈ (convert_to_wav input output).1, ∃ m, a = RTAction.logInfo m := by
  refine ⟨?_, ?_, ?_, ?_⟩
  · intro p hp
    subst hp
    rfl
  · intro ho hdot
    subst ho
    show String.mk (rsplitDotStem input.data) ++ ".wav" = input ++ ".wav"
    rw [rsplitDotStem, if_neg hdot]
  · intro ho hdot
    subst ho
    obtain ⟨suffix, heq, hns⟩ := rsplitDotStem_spec input.data hdot
    exact ⟨rsplitDotStem input.data, suffix, heq, hns, rfl⟩
  · intro a ha
    simp only [convert_to_wav, List.mem_singleton] at ha
    exact ⟨_, ha⟩

/-- Witness for C10: a supplied output path is returned unchanged, a dotted
input has its extension replaced, and a dot-free input gets `.wav`
appended. -/
theorem C10_convert_to_wav_witness :
    (convert_to_wav "a.mp3" (some "b.wav")).2 = "b.wav" ∧
    (convert_to_wav "ab" none).2 = "ab" ++ ".wav" :=
  ⟨(C10_convert_to_wav "a.mp3" (some "b.wav")).1 "b.wav" rfl,
   (C10_convert_to_wav "ab" none).2.1 rfl (by decide)⟩
